import Mathlib

/-!
Verification of the state-reconciliation and persistence engine of the
EksiSozlukScraper repository, shallowly embedded in Lean 4.

The embedding follows the Python sources:
  * `new/scraper.py` — validation, atomic state store with backup rotation,
    set-level diff (`compute_diff`), page-URL generation, retrying fetch,
    lock/exit-code signalling;
  * `python-scraper/data_manager.py` — the content-aware diff
    (`DataManager.diff`).

Records are Python dicts whose fields are strings once produced by
`extract_entry`; they are embedded as the structure `Entry`.  Records of
unknown shape (as seen by the validator, which must handle missing or
non-string fields) are embedded as `RawEntry`.  The filesystem touched by
the state store is embedded as `StateFS`: one primary slot, a numbered
family of backup slots and one temp-file slot, each an abstract
`FileState` describing how the file behaves when opened and parsed.
-/

/-- A fully-extracted record, as produced by `extract_entry` in
`new/scraper.py` (all five fields are strings there) and by `Entry` in
`python-scraper/entry.py`. -/
structure Entry where
  id : String
  author : String
  timestamp : String
  content : String
  scraped_at : String
deriving DecidableEq, Repr

/-- Lookup in the Python dict `{entry[id]: entry for entry in es}`: the
value stored under key `i` is the LAST element of `es` whose `id` is `i`
(later insertions overwrite earlier ones). -/
def lastWithId (es : List Entry) (i : String) : Option Entry :=
  match es with
  | [] => none
  | e :: rest =>
    match lastWithId rest i with
    | some r => some r
    | none => if e.id = i then some e else none

/-- One element of the `edited` list built by `compute_diff`
(`new/scraper.py`, lines 332–344). -/
structure EditedEntry where
  id : String
  author : String
  prev_content : String
  prev_timestamp : String
  curr_content : String
  curr_timestamp : String
  scraped_at : String
deriving DecidableEq, Repr

/-- The `summary` sub-dict returned by `compute_diff`. -/
structure DiffSummary where
  new_count : Nat
  edited_count : Nat
  deleted_count : Nat
  total_current : Nat
  total_previous : Nat
deriving DecidableEq, Repr

/-- The dict returned by `compute_diff`. -/
structure DiffResult where
  new : List Entry
  edited : List EditedEntry
  deleted : List Entry
  summary : DiffSummary
deriving DecidableEq, Repr

/-- The body of the loop over `common_ids` in `compute_diff`: for one
common id, compare `content` and `timestamp` of the current and previous
records and build the edited element if either changed. -/
def editedOf (current previous : List Entry) (i : String) : Option EditedEntry :=
  match lastWithId current i, lastWithId previous i with
  | some curr, some prev =>
    if curr.content ≠ prev.content ∨ curr.timestamp ≠ prev.timestamp then
      some { id := i, author := curr.author,
             prev_content := prev.content, prev_timestamp := prev.timestamp,
             curr_content := curr.content, curr_timestamp := curr.timestamp,
             scraped_at := curr.scraped_at }
    else none
  | _, _ => none

/-- `compute_diff` from `new/scraper.py` (lines 305–357).  The previous
state is the dict built by `load_state`, i.e. a family of records keyed by
their own ids; it is embedded as the list of its values, with dict-key
order (first insertion) given by `dedup` of the id list and dict lookup
given by `lastWithId`.  The Python sets of ids are embedded as
deduplicated lists; all claims about them are at the membership level, so
the particular order is irrelevant. -/
def compute_diff (current_entries : List Entry) (previous_state : List Entry) : DiffResult :=
  let current_ids := (current_entries.map Entry.id).dedup
  let previous_ids := (previous_state.map Entry.id).dedup
  let new_ids := current_ids.filter (fun i => decide (i ∉ previous_ids))
  let new_entries := new_ids.filterMap (lastWithId current_entries)
  let deleted_ids := previous_ids.filter (fun i => decide (i ∉ current_ids))
  let deleted_entries := deleted_ids.filterMap (lastWithId previous_state)
  let common_ids := current_ids.filter (fun i => decide (i ∈ previous_ids))
  let edited_entries := common_ids.filterMap (editedOf current_entries previous_state)
  { new := new_entries
    edited := edited_entries
    deleted := deleted_entries
    summary :=
      { new_count := new_entries.length
        edited_count := edited_entries.length
        deleted_count := deleted_entries.length
        total_current := current_entries.length
        total_previous := previous_ids.length } }

/-- One dict emitted by `DataManager.diff` in
`python-scraper/data_manager.py`: the `type` field is the literal string
written by the source (one of "new", "appended", "edited"). -/
structure DiffRec where
  id : String
  type : String
  content : String
  timestamp : String
deriving DecidableEq, Repr

/-- Python `s.startswith(pre)`: prefix test on the code-point sequence. -/
def pyStartsWith (s pre : String) : Bool :=
  pre.data.isPrefixOf s.data

/-- Python `s[n:]`: drop the first `n` code points. -/
def pySliceFrom (s : String) (n : Nat) : String :=
  ⟨s.data.drop n⟩

/-- Python `len(s)`: number of code points. -/
def pyLen (s : String) : Nat :=
  s.data.length

/-- Truthiness of Python `s.strip()`: `s` contains some non-whitespace
code point. -/
def pyStripNonempty (s : String) : Bool :=
  s.data.any (fun c => !c.isWhitespace)

/-- The per-element body of the loop in `DataManager.diff`
(`python-scraper/data_manager.py`, lines 36–46).  `old_map.get` is
`lastWithId old_data`; Python slicing, `len`, `startswith` and the
`strip()` truthiness test are the code-point operations above. -/
def dmDiffStep (old_data : List Entry) (entry : Entry) : Option DiffRec :=
  match lastWithId old_data entry.id with
  | none => some { id := entry.id, type := "new",
                   content := entry.content, timestamp := entry.timestamp }
  | some old_entry =>
    if entry.content ≠ old_entry.content then
      if pyStartsWith entry.content old_entry.content then
        let appended := pySliceFrom entry.content (pyLen old_entry.content)
        if pyStripNonempty appended then
          some { id := entry.id, type := "appended",
                 content := appended, timestamp := entry.timestamp }
        else none
      else
        some { id := entry.id, type := "edited",
               content := entry.content, timestamp := entry.timestamp }
    else none

/-- `DataManager.diff` from `python-scraper/data_manager.py`
(lines 33–47): one pass over `new_data`, appending at most one diff dict
per element. -/
def dmDiff (old_data new_data : List Entry) : List DiffRec :=
  new_data.filterMap (dmDiffStep old_data)

/-- A field value as the validator sees it: a string, or some non-string
JSON value. -/
inductive FieldVal where
  | str (s : String)
  | nonstr
deriving DecidableEq, Repr

/-- A record of unknown shape, as consumed by `validate_entry`: each of
the five required dict keys is present (`some`) or absent (`none`), and a
present value may or may not be a string. -/
structure RawEntry where
  id : Option FieldVal
  author : Option FieldVal
  timestamp : Option FieldVal
  content : Option FieldVal
  scraped_at : Option FieldVal
deriving DecidableEq, Repr

/-- `validate_entry` from `new/scraper.py` (lines 153–166): all five
required fields present, `id` a non-empty string, `content` a string. -/
def validate_entry (entry : RawEntry) : Bool :=
  entry.id.isSome && entry.author.isSome && entry.timestamp.isSome &&
  entry.content.isSome && entry.scraped_at.isSome &&
  (match entry.id with
   | some (.str s) => s ≠ ""
   | _ => false) &&
  (match entry.content with
   | some (.str _) => true
   | _ => false)

/-- The id string of a validated record (`entry[id]` in Python); `""` as
a dummy for records whose `id` is not a string (never consulted on a path
where `validate_entry` failed). -/
def rawId (entry : RawEntry) : String :=
  match entry.id with
  | some (.str s) => s
  | _ => ""

/-- A rejection reported by `validate_entries`: the source appends the
strings "Invalid entry structure: {id-or-unknown}" and
"Duplicate entry ID: {id}"; they are embedded as tagged values carrying
the same data. -/
inductive ValidationError where
  | invalidStructure (id : Option FieldVal)
  | duplicateId (id : String)
deriving DecidableEq, Repr

/-- The loop of `validate_entries` (`new/scraper.py`, lines 176–187),
carrying the `seen_ids` set as a list consulted by membership only. -/
def validateGo : List RawEntry → List String → List RawEntry × List ValidationError
  | [], _ => ([], [])
  | entry :: rest, seen =>
    if validate_entry entry = false then
      let r := validateGo rest seen
      (r.1, ValidationError.invalidStructure entry.id :: r.2)
    else if rawId entry ∈ seen then
      let r := validateGo rest seen
      (r.1, ValidationError.duplicateId (rawId entry) :: r.2)
    else
      let r := validateGo rest (rawId entry :: seen)
      (entry :: r.1, r.2)

/-- `validate_entries` from `new/scraper.py` (lines 169–189): returns the
accepted records in order plus the list of rejections. -/
def validate_entries (entries : List RawEntry) : List RawEntry × List ValidationError :=
  validateGo entries []

/-- A well-formed raw record for concrete tests. -/
def mkRaw (i a t c s : String) : RawEntry :=
  ⟨some (.str i), some (.str a), some (.str t), some (.str c), some (.str s)⟩

/-- Configuration constants of `new/scraper.py` (lines 28–31). -/
def MAX_RETRIES : Nat := 3

/-- Exponential backoff base: `2 ** retry_count` seconds. -/
def RETRY_BACKOFF_BASE : Nat := 2

/-- Number of state backups kept. -/
def STATE_BACKUP_COUNT : Nat := 5

/-- One element of a JSON array stored in a state or backup file.  A
`dict` element is a JSON object, validated normally as a `RawEntry`.  A
non-dict element makes `validate_entry` (`new/scraper.py`, lines
155–160) behave in one of two ways: on numbers, booleans and null the
membership test `field in entry` raises `TypeError`, and a string or
array that happens to pass all five membership tests raises at
`entry[id]` — such elements carry `raises := true`; a typical string or
array fails a membership test, so `validate_entry` returns `False` and
the element is filtered out without raising — `raises := false`. -/
inductive StoredElem where
  | dict (e : RawEntry)
  | nondict (raises : Bool)
deriving DecidableEq, Repr

/-- Whether running `validate_entry` on this element raises. -/
def elemRaises : StoredElem → Bool
  | .dict _ => false
  | .nondict r => r

/-- Whether the validate-filter dict comprehension over these elements
(`new/scraper.py`, lines 210 and 228, both inside a `try`) raises: it
does iff some element raises, and the exception discards the whole
comprehension. -/
def anyRaises (es : List StoredElem) : Bool :=
  es.any elemRaises

/-- The dict elements of a stored list; non-dict elements that do not
raise are filtered out by the comprehension exactly like dicts failing
validation. -/
def dictElems (es : List StoredElem) : List RawEntry :=
  es.filterMap (fun e =>
    match e with
    | .dict r => some r
    | .nondict _ => none)

/-- How a state file behaves when the store opens it: missing; present but
raising on read or JSON parse; parsing to a non-list JSON value; or
parsing to a list of elements. -/
inductive FileState where
  | absent
  | unreadable
  | notList
  | list (es : List StoredElem)
deriving DecidableEq, Repr

/-- `Path(...).exists()` on a slot of the embedded filesystem. -/
def fileExists : FileState → Bool
  | .absent => false
  | _ => true

/-- The slice of the filesystem the state store touches: the primary
state file, the numbered backup slots (`<state>.backup.i`, consulted for
`i = 1..STATE_BACKUP_COUNT`), and the process temp file
(`<state>.tmp.<pid>`). -/
structure StateFS where
  primary : FileState
  backups : Nat → FileState
  tmp : Option (List RawEntry)

/-- Python dict insertion: replaces the value in place if the key exists,
appends otherwise (keys keep first-insertion order, values are the last
written). -/
def insertAssoc (m : List (String × RawEntry)) (k : String) (v : RawEntry) :
    List (String × RawEntry) :=
  if m.any (fun p => p.1 = k) then
    m.map (fun p => if p.1 = k then (k, v) else p)
  else m ++ [(k, v)]

/-- The dict comprehension
`{entry[id]: entry for entry in entries if validate_entry(entry)}`
used by `load_state` and `load_state_from_backup`. -/
def dictOfRaw (es : List RawEntry) : List (String × RawEntry) :=
  es.foldl (fun m e => if validate_entry e then insertAssoc m (rawId e) e else m) []

/-- The loop of `load_state_from_backup` (`new/scraper.py`, lines
219–231) over the listed backup indices: a missing backup, a backup that
raises on read/parse, a backup that parses to a non-list, and a backup
whose validation scan raises on some element (the comprehension at line
228 sits inside the `try`, so the exception is logged as "also
corrupted") are all skipped; the first backup parsing to a list whose
scan does not raise is returned, its dict records filtered through
`validate_entry`. -/
def backupCascade (fs : StateFS) : List Nat → List (String × RawEntry)
  | [] => []
  | i :: rest =>
    match fs.backups i with
    | .list es =>
      if anyRaises es then backupCascade fs rest
      else dictOfRaw (dictElems es)
    | _ => backupCascade fs rest

/-- `load_state_from_backup` from `new/scraper.py` (lines 217–234):
tries backups `1..STATE_BACKUP_COUNT` in order, returns `{}` when all
fail. -/
def load_state_from_backup (fs : StateFS) : List (String × RawEntry) :=
  backupCascade fs (List.range' 1 STATE_BACKUP_COUNT)

/-- `load_state` from `new/scraper.py` (lines 196–214).  An absent
primary is first-run: `{}`.  A primary that parses to a non-list prints a
warning and returns `{}` (no backup is consulted).  A primary parsing to
a list: if the validation scan raises on some element (the comprehension
at line 210 is inside the `try`), the exception falls through to the
backup cascade; otherwise the dict records passing `validate_entry` are
returned and no backup is consulted.  A read/parse exception likewise
falls through to the cascade. -/
def load_state (fs : StateFS) : List (String × RawEntry) :=
  match fs.primary with
  | .absent => []
  | .notList => []
  | .list es =>
    if anyRaises es then load_state_from_backup fs
    else dictOfRaw (dictElems es)
  | .unreadable => load_state_from_backup fs

/-- A backup slot the cascade passes over: it holds no list, or holds a
list whose validation scan raises. -/
def backupSkipped (fs : StateFS) (j : Nat) : Prop :=
  ∀ es, fs.backups j = FileState.list es → anyRaises es = true

/-- One rename of the rotation loop in `rotate_backups`: if backup `i`
exists it is renamed over backup `i + 1`. -/
def rotateStep (b : Nat → FileState) (i : Nat) : Nat → FileState :=
  if fileExists (b i) then
    fun j => if j = i + 1 then b i else if j = i then .absent else b j
  else b

/-- `rotate_backups` from `new/scraper.py` (lines 237–258): no-op when
the primary does not exist; otherwise renames backup `i` to backup
`i + 1` for `i = STATE_BACKUP_COUNT - 1` down to `1`, then copies the
primary into backup slot 1. -/
def rotate_backups (fs : StateFS) : StateFS :=
  if fileExists fs.primary = false then fs
  else
    let rotated := ((List.range' 1 (STATE_BACKUP_COUNT - 1)).reverse).foldl rotateStep fs.backups
    { fs with backups := fun j => if j = 1 then fs.primary else rotated j }

/-- `save_state_atomic` from `new/scraper.py` (lines 261–298): validate,
fail (touching nothing) when no record survives; otherwise rotate
backups, write the accepted records to the temp file, fsync, and
atomically rename the temp file over the primary. -/
def save_state_atomic (entries : List RawEntry) (fs : StateFS) : Bool × StateFS :=
  let vr := validate_entries entries
  if vr.1 = [] then (false, fs)
  else
    let fs1 := rotate_backups fs
    let fs2 := { fs1 with tmp := some vr.1 }
    (true, { fs2 with primary := FileState.list (vr.1.map StoredElem.dict), tmp := none })

/-- `build_page_urls` from `new/scraper.py` (lines 142–146): the bare
base URL when the page count is 1, otherwise `base?p=page` for every page
`1..page_count`. -/
def build_page_urls (base_url : String) (page_count : Nat) : List String :=
  if page_count = 1 then [base_url]
  else (List.range' 1 page_count).map (fun page => base_url ++ "?p=" ++ toString page)

/-- Outcome of one `requests.get` attempt, indexed by attempt number:
either a successful response body or an exception from the
`RequestException` family (timeout, connection error, HTTP error status). -/
inductive FetchResult where
  | ok (html : String)
  | transientError
deriving DecidableEq, Repr

/-- The `for attempt in range(max_retries)` loop of
`fetch_html_with_retry` (`new/scraper.py`, lines 78–94), iterating over
the remaining attempt indices.  Returns the result (`some` body or
`none`), the backoff sleeps performed (seconds, `2 ** attempt`), and the
number of attempts made. -/
def fetchGo (oracle : Nat → FetchResult) (max_retries : Nat) :
    List Nat → Option String × List Nat × Nat
  | [] => (none, [], 0)
  | attempt :: rest =>
    match oracle attempt with
    | .ok html => (some html, [], 1)
    | .transientError =>
      if attempt < max_retries - 1 then
        let r := fetchGo oracle max_retries rest
        (r.1, (RETRY_BACKOFF_BASE ^ attempt) :: r.2.1, r.2.2 + 1)
      else (none, [], 1)

/-- `fetch_html_with_retry` from `new/scraper.py` (lines 76–94), with the
network abstracted as an oracle giving each attempt's outcome. -/
def fetch_html_with_retry (oracle : Nat → FetchResult) (max_retries : Nat := MAX_RETRIES) :
    Option String × List Nat × Nat :=
  fetchGo oracle max_retries (List.range max_retries)

/-- The four process outcomes the spec names for one scraper run. -/
inductive RunOutcome where
  | success
  | incompleteData
  | alreadyRunning
  | hardFailure
deriving DecidableEq, Repr

/-- The exit code `new/scraper.py` uses for each outcome: `sys.exit(0)`
on full success (line 642), `sys.exit(2)` on a partially-failed scrape
(line 640), `sys.exit(2)` when the lock is already held (`acquire_lock`,
line 54), and `sys.exit(1)` on every hard failure (usage, no entries, no
valid entries, save failure, output failure). -/
def exit_code : RunOutcome → Nat
  | .success => 0
  | .incompleteData => 2
  | .alreadyRunning => 2
  | .hardFailure => 1

/-- A record with every required field missing (rejected by
`validate_entry`). -/
def rawNoFields : RawEntry := ⟨none, none, none, none, none⟩

/-- A filesystem with no state file, no backups and no temp file. -/
def fsEmpty : StateFS := ⟨FileState.absent, fun _ => FileState.absent, none⟩

/-- Claim C6 counterexample: in the batch `[rawBad, good]` both records
carry id "1", but `rawBad` (missing its `author` field) is rejected for
structure and the SECOND occurrence is the one accepted — `good`'s id had
already appeared earlier in the batch, contradicting both the claim's
acceptance condition and its "exactly the first occurrence is accepted"
consequence. -/

def rawBad : RawEntry :=
  ⟨some (.str "1"), none, some (.str "t"), some (.str "c"), some (.str "s")⟩

/-- The amended claim's acceptance rule, stated in the spec's vocabulary
for comparison with `validate_entries`: scan the batch keeping a record
iff it is structurally valid and its id is not among the ids of the
records KEPT so far. -/
def acceptedStep (acc : List RawEntry) (e : RawEntry) : List RawEntry :=
  if validate_entry e = true ∧ rawId e ∉ acc.map rawId then acc ++ [e] else acc

/-- See `acceptedStep`. -/
def acceptedAmendedSpec (entries : List RawEntry) : List RawEntry :=
  entries.foldl acceptedStep []

/-- A valid concrete record for state-store tests. -/
def rawG : RawEntry := mkRaw "9" "a" "t" "c" "s"

/-- A filesystem whose primary state file parses to a non-list JSON value
while backup 1 is fully valid. -/
def fsNotListPrimary : StateFS :=
  ⟨FileState.notList, fun _ => FileState.list [StoredElem.dict rawG], none⟩

/-- A filesystem with an unreadable primary, an unreadable backup 1 and a
valid backup 2. -/
def fsBackup2Valid : StateFS :=
  ⟨FileState.unreadable,
   fun i => match i with
     | 1 => FileState.unreadable
     | 2 => FileState.list [StoredElem.dict rawG]
     | _ => FileState.absent,
   none⟩

/-- Claim C7 counterexample: the claim says the four process outcomes are
signalled by pairwise distinct exit codes, but success-with-partial-data
(`sys.exit(2)` at the end of `main`) and already-running (`sys.exit(2)`
in `acquire_lock`) are two distinct outcomes sharing exit code 2. -/
theorem exit_code_collision :
    exit_code RunOutcome.incompleteData = exit_code RunOutcome.alreadyRunning ∧
    RunOutcome.incompleteData ≠ RunOutcome.alreadyRunning := by
  decide

/-- Claim C7 (amended): normal success (0), hard failure (1) and the
warning code (2) are pairwise distinct, so success, hard failure and the
pooled warning outcomes are mutually distinguishable; but
success-with-partial-data and already-running share exit code 2 and are
not distinguishable from each other. -/
theorem exit_code_partition :
    exit_code RunOutcome.success = 0 ∧
    exit_code RunOutcome.hardFailure = 1 ∧
    exit_code RunOutcome.incompleteData = 2 ∧
    exit_code RunOutcome.alreadyRunning = 2 ∧
    exit_code RunOutcome.success ≠ exit_code RunOutcome.hardFailure ∧
    exit_code RunOutcome.success ≠ exit_code RunOutcome.incompleteData ∧
    exit_code RunOutcome.success ≠ exit_code RunOutcome.alreadyRunning ∧
    exit_code RunOutcome.hardFailure ≠ exit_code RunOutcome.incompleteData ∧
    exit_code RunOutcome.hardFailure ≠ exit_code RunOutcome.alreadyRunning ∧
    exit_code RunOutcome.incompleteData = exit_code RunOutcome.alreadyRunning := by
  decide

/-- Claim C8 counterexample: the claim says the page-1 target is the bare
base address for every page count, but for a page count of 2 the code
emits `u?p=1` as the first target, not `u`. -/
theorem build_page_urls_page1_not_bare :
    build_page_urls "u" 2 = ["u?p=1", "u?p=2"] ∧
    build_page_urls "u" 2 ≠ ["u", "u?p=2"] := by
  decide

/-- Claim C8 (amended): for every base target and page count N ≥ 1 the
walker deterministically produces exactly N targets for pages 1..N; when
N = 1 the single target is the bare base address, and when N ≥ 2 every
page p — page 1 included — gets the page-query-parameter `?p=p`. -/
theorem build_page_urls_spec (base : String) (n : Nat) (h1 : 1 ≤ n) :
    (build_page_urls base n).length = n ∧
    (n = 1 → build_page_urls base n = [base]) ∧
    (2 ≤ n → ∀ i, i < n →
      (build_page_urls base n)[i]? = some (base ++ "?p=" ++ toString (i + 1))) := by
  by_cases hn : n = 1
  · subst hn
    refine ⟨by simp [build_page_urls], fun _ => by simp [build_page_urls], fun h2 => ?_⟩
    omega
  · refine ⟨?_, fun h => absurd h hn, fun _ i hi => ?_⟩
    · simp [build_page_urls, hn]
    · rw [build_page_urls, if_neg hn, List.getElem?_map,
        List.getElem?_range' 1 1 hi]
      simp [Nat.add_comm]

/-- Witness for `build_page_urls_spec` at base "u", N = 3. -/
theorem build_page_urls_spec_witness :
    (build_page_urls "u" 3).length = 3 ∧
    (3 = 1 → build_page_urls "u" 3 = ["u"]) ∧
    (2 ≤ 3 → ∀ i, i < 3 →
      (build_page_urls "u" 3)[i]? = some ("u" ++ "?p=" ++ toString (i + 1))) :=
  build_page_urls_spec "u" 3 (by decide)

/-- The retry loop on an all-failing oracle: starting at attempt `s` with
`n` attempts left (`s + n = max_retries`), every attempt fails, a backoff
of `2 ^ attempt` seconds is slept between consecutive attempts, and the
loop ends returning `none` after exactly `n` further attempts. -/
theorem fetchGo_all_fail (oracle : Nat → FetchResult)
    (h : ∀ a, oracle a = FetchResult.transientError) (max_retries : Nat) :
    ∀ n s, s + n = max_retries →
      fetchGo oracle max_retries (List.range' s n) =
        (none, (List.range' s (n - 1)).map (fun a => RETRY_BACKOFF_BASE ^ a), n) := by
  intro n
  induction n with
  | zero => intro s _; simp [fetchGo]
  | succ m ih =>
    intro s hs
    rw [List.range'_succ]
    simp only [fetchGo, h s]
    cases m with
    | zero =>
      rw [if_neg (by omega)]
      simp
    | succ k =>
      rw [if_pos (by omega), ih (s + 1) (by omega)]
      simp [List.range'_succ]

/-- Claim C9: on a target whose fetch fails transiently on every attempt,
`fetch_html_with_retry` makes exactly its attempt bound of attempts
(default `MAX_RETRIES = 3`), sleeping the exponentially doubling backoff
`2 ^ attempt` seconds between consecutive attempts, and finally returns
the typed failure `none` to its caller instead of raising. -/
theorem fetch_retry_exhaustion (oracle : Nat → FetchResult) (max_retries : Nat)
    (h : ∀ a, oracle a = FetchResult.transientError) :
    fetch_html_with_retry oracle max_retries =
      (none, (List.range (max_retries - 1)).map (fun a => RETRY_BACKOFF_BASE ^ a),
       max_retries) := by
  rw [fetch_html_with_retry, List.range_eq_range', List.range_eq_range']
  exact fetchGo_all_fail oracle h max_retries max_retries 0 (by omega)

/-- Witness for `fetch_retry_exhaustion` at the default bound 3:
three attempts, backoff sleeps of 1 and 2 seconds, result `none`. -/
theorem fetch_retry_exhaustion_witness :
    fetch_html_with_retry (fun _ => FetchResult.transientError) 3 =
      (none, (List.range 2).map (fun a => RETRY_BACKOFF_BASE ^ a), 3) :=
  fetch_retry_exhaustion (fun _ => FetchResult.transientError) 3 (fun _ => rfl)

/-- Claim C5: when validation rejects every record of the batch,
`save_state_atomic` reports failure and returns the filesystem exactly as
it found it — primary, every backup slot and the temp slot untouched (the
emptiness check precedes rotation and the temp-file write). -/
theorem save_state_atomic_empty_noop (entries : List RawEntry) (fs : StateFS)
    (h : (validate_entries entries).1 = []) :
    save_state_atomic entries fs = (false, fs) := by
  simp [save_state_atomic, h]

/-- Witness for `save_state_atomic_empty_noop` on a concrete all-invalid
batch. -/
theorem save_state_atomic_empty_noop_witness :
    save_state_atomic [rawNoFields] fsEmpty = (false, fsEmpty) :=
  save_state_atomic_empty_noop [rawNoFields] fsEmpty (by decide)

/-- Claim C10: every dict emitted by `DataManager.diff` has type "new",
"appended" or "edited" (never "deleted"), and comes from an element of
`new_data` with the same id that is either absent from the old map or has
changed content there — so an id only in `old_data` yields no entry, and
an id whose content is unchanged yields no entry even when its timestamp
differs. -/
theorem dmDiff_emits_only_new_data (old_data new_data : List Entry) (d : DiffRec)
    (hd : d ∈ dmDiff old_data new_data) :
    (d.type = "new" ∨ d.type = "appended" ∨ d.type = "edited") ∧
    ∃ e, e ∈ new_data ∧ d.id = e.id ∧
      (lastWithId old_data e.id = none ∨
       ∃ o, lastWithId old_data e.id = some o ∧ e.content ≠ o.content) := by
  rw [dmDiff, List.mem_filterMap] at hd
  obtain ⟨e, he, hstep⟩ := hd
  cases hlk : lastWithId old_data e.id with
  | none =>
    simp only [dmDiffStep, hlk, Option.some.injEq] at hstep
    subst hstep
    exact ⟨Or.inl rfl, e, he, rfl, Or.inl hlk⟩
  | some o =>
    by_cases hc : e.content = o.content
    · simp [dmDiffStep, hlk, hc] at hstep
    · simp only [dmDiffStep, hlk, ne_eq, hc, not_false_eq_true, if_true] at hstep
      by_cases hp : pyStartsWith e.content o.content = true
      · simp only [hp, if_true] at hstep
        by_cases hw : pyStripNonempty (pySliceFrom e.content (pyLen o.content)) = true
        · simp only [hw, if_true, Option.some.injEq] at hstep
          subst hstep
          exact ⟨Or.inr (Or.inl rfl), e, he, rfl, Or.inr ⟨o, hlk, hc⟩⟩
        · rw [Bool.not_eq_true] at hw
          simp [hw] at hstep
      · rw [Bool.not_eq_true] at hp
        simp only [hp, Bool.false_eq_true, if_false, Option.some.injEq] at hstep
        subst hstep
        exact ⟨Or.inr (Or.inr rfl), e, he, rfl, Or.inr ⟨o, hlk, hc⟩⟩

/-- Witness for `dmDiff_emits_only_new_data` on a concrete one-element
batch producing a "new" entry. -/
theorem dmDiff_emits_only_new_data_witness :
    ((⟨"1", "new", "c", "t"⟩ : DiffRec).type = "new" ∨
     (⟨"1", "new", "c", "t"⟩ : DiffRec).type = "appended" ∨
     (⟨"1", "new", "c", "t"⟩ : DiffRec).type = "edited") ∧
    ∃ e, e ∈ [(⟨"1", "a", "t", "c", "s"⟩ : Entry)] ∧
      (⟨"1", "new", "c", "t"⟩ : DiffRec).id = e.id ∧
      (lastWithId [] e.id = none ∨
       ∃ o, lastWithId [] e.id = some o ∧ e.content ≠ o.content) :=
  dmDiff_emits_only_new_data [] [⟨"1", "a", "t", "c", "s"⟩] ⟨"1", "new", "c", "t"⟩
    (by decide)

theorem dmDiff_delta_and_whitespace :
    dmDiff [⟨"1", "a", "t", "a storm hit", "s"⟩]
           [⟨"1", "a", "t2", "a storm hit. update: 5.8 magnitude", "s2"⟩]
      = [⟨"1", "appended", ". update: 5.8 magnitude", "t2"⟩] ∧
    (". update: 5.8 magnitude" : String) ≠ "update: 5.8 magnitude" ∧
    dmDiff [⟨"1", "a", "t", "a", "s"⟩] [⟨"1", "a", "t2", "a ", "s2"⟩] = [] ∧
    ("a " : String) ≠ "a" := by
  decide

/-- Claim C3 (amended): for an id present in both lists with changed
content, the diff emits an "appended" entry carrying the raw code-point
suffix of the current content past the previous content's length
(leading separators included) when the current content starts with the
previous content and that suffix contains a non-whitespace character; it
emits an "edited" entry with the full new content when the current
content does not start with the previous content; and it emits nothing
when the suffix is entirely whitespace.  In particular the storm example
yields delta ". update: 5.8 magnitude" and the rewritten-text example
yields "edited" with the full new content. -/
theorem dmDiff_classification :
    (∀ (old_data new_data : List Entry) (e o : Entry),
      e ∈ new_data → lastWithId old_data e.id = some o →
      e.content ≠ o.content →
      ((pyStartsWith e.content o.content = true →
        pyStripNonempty (pySliceFrom e.content (pyLen o.content)) = true →
        (⟨e.id, "appended", pySliceFrom e.content (pyLen o.content), e.timestamp⟩ : DiffRec)
          ∈ dmDiff old_data new_data) ∧
       (pyStartsWith e.content o.content = true →
        pyStripNonempty (pySliceFrom e.content (pyLen o.content)) = false →
        dmDiffStep old_data e = none) ∧
       (pyStartsWith e.content o.content = false →
        (⟨e.id, "edited", e.content, e.timestamp⟩ : DiffRec) ∈ dmDiff old_data new_data))) ∧
    dmDiff [⟨"1", "a", "t", "a storm hit", "s"⟩]
           [⟨"1", "a", "t2", "a storm hit. update: 5.8 magnitude", "s2"⟩]
      = [⟨"1", "appended", ". update: 5.8 magnitude", "t2"⟩] ∧
    dmDiff [⟨"1", "a", "t", "a storm hit", "s"⟩]
           [⟨"1", "a", "t2", "totally different text", "s2"⟩]
      = [⟨"1", "edited", "totally different text", "t2"⟩] := by
  refine ⟨?_, by decide, by decide⟩
  intro old_data new_data e o he hlk hc
  refine ⟨fun hp hw => ?_, fun hp hw => ?_, fun hp => ?_⟩
  · rw [dmDiff, List.mem_filterMap]
    refine ⟨e, he, ?_⟩
    simp only [dmDiffStep, hlk, ne_eq, hc, not_false_eq_true, if_true, hp, hw]
  · simp only [dmDiffStep, hlk, ne_eq, hc, not_false_eq_true, if_true, hp, if_true, hw,
      Bool.false_eq_true, if_false]
  · rw [dmDiff, List.mem_filterMap]
    refine ⟨e, he, ?_⟩
    simp only [dmDiffStep, hlk, ne_eq, hc, not_false_eq_true, if_true, hp,
      Bool.false_eq_true, if_false]

/-- Witness for `dmDiff_classification` on a fresh concrete append:
previous content "ab", current "abxy". -/
theorem dmDiff_classification_witness :
    (⟨"2", "appended", pySliceFrom "abxy" (pyLen "ab"), "t9"⟩ : DiffRec)
      ∈ dmDiff [⟨"2", "b", "t", "ab", "s"⟩] [⟨"2", "b", "t9", "abxy", "s9"⟩] :=
  (dmDiff_classification.1 [⟨"2", "b", "t", "ab", "s"⟩] [⟨"2", "b", "t9", "abxy", "s9"⟩]
      ⟨"2", "b", "t9", "abxy", "s9"⟩ ⟨"2", "b", "t", "ab", "s"⟩
      (by decide) (by decide) (by decide)).1 (by decide) (by decide)

/-- Claim C6 counterexample: in the batch `[rawBad, good]` both records
carry id "1", but `rawBad` (missing its `author` field) is rejected for
structure and the SECOND occurrence is the one accepted — `good`'s id had
already appeared earlier in the batch, contradicting both the claim's
acceptance condition and its "exactly the first occurrence is accepted"
consequence. -/
theorem validate_first_occurrence_loses :
    validate_entries [rawBad, mkRaw "1" "a" "t" "c" "s"]
      = ([mkRaw "1" "a" "t" "c" "s"],
         [ValidationError.invalidStructure (some (FieldVal.str "1"))]) ∧
    rawId rawBad = rawId (mkRaw "1" "a" "t" "c" "s") ∧
    rawBad ≠ mkRaw "1" "a" "t" "c" "s" := by
  decide

/-- The validator loop refines the accepted-so-far scan: with `seen`
holding exactly the ids of the accumulator, the records it accepts extend
the accumulator exactly as the scan does. -/
theorem validateGo_foldl (entries : List RawEntry) :
    ∀ (seen : List String) (acc : List RawEntry),
      (∀ s, s ∈ seen ↔ s ∈ acc.map rawId) →
      acc ++ (validateGo entries seen).1 = entries.foldl acceptedStep acc := by
  induction entries with
  | nil => intro seen acc _; simp [validateGo]
  | cons e rest ih =>
    intro seen acc hiff
    by_cases hv : validate_entry e = true
    · by_cases hm : rawId e ∈ seen
      · have hm2 : rawId e ∈ acc.map rawId := (hiff _).mp hm
        simp only [validateGo, hv, Bool.true_eq_false, if_false, if_pos hm,
          List.foldl_cons, acceptedStep, hm2, not_true_eq_false, and_false, if_false]
        exact ih seen acc hiff
      · have hm2 : rawId e ∉ acc.map rawId := fun h => hm ((hiff _).mpr h)
        simp only [validateGo, hv, Bool.true_eq_false, if_false, if_neg hm,
          List.foldl_cons, acceptedStep, hv, hm2, not_false_eq_true, and_true, if_true]
        rw [List.append_cons]
        refine ih (rawId e :: seen) (acc ++ [e]) ?_
        intro s
        simp only [List.mem_cons, List.map_append, List.mem_append, List.map_cons,
          List.map_nil, List.mem_singleton, hiff s]
        tauto
    · rw [Bool.not_eq_true] at hv
      simp only [validateGo, hv, if_true, List.foldl_cons, acceptedStep, hv,
        Bool.false_eq_true, false_and, if_false]
      exact ih seen acc hiff

/-- An invalid record is skipped without affecting which other records
the validator accepts (it adds nothing to `seen_ids`). -/
theorem validateGo_skip_invalid (e : RawEntry) (hv : validate_entry e = false)
    (ys : List RawEntry) :
    ∀ (xs : List RawEntry) (seen : List String),
      (validateGo (xs ++ e :: ys) seen).1 = (validateGo (xs ++ ys) seen).1 := by
  intro xs
  induction xs with
  | nil => intro seen; simp [validateGo, hv]
  | cons x rest ih =>
    intro seen
    by_cases hvx : validate_entry x = true
    · by_cases hmx : rawId x ∈ seen
      · simp only [List.cons_append, validateGo, hvx, Bool.true_eq_false, if_false,
          if_pos hmx]
        exact ih seen
      · simp only [List.cons_append, validateGo, hvx, Bool.true_eq_false, if_false,
          if_neg hmx]
        exact congrArg (List.cons x) (ih (rawId x :: seen))
    · rw [Bool.not_eq_true] at hvx
      simp only [List.cons_append, validateGo, hvx, if_true]
      exact ih seen

/-- Claim C6 (amended): a record is accepted iff it has all required
fields, a non-empty string id and a string content, and its id is not
among the ids of the records ACCEPTED earlier in the batch (a rejected
earlier occurrence does not block it); for a batch of two structurally
valid records sharing one id, exactly the first is accepted with exactly
one duplicate rejection; and an invalid record never affects which other
records are accepted. -/
theorem validate_entries_characterization :
    (∀ entries : List RawEntry,
      (validate_entries entries).1 = acceptedAmendedSpec entries) ∧
    (∀ e1 e2 : RawEntry, validate_entry e1 = true → validate_entry e2 = true →
      rawId e1 = rawId e2 →
      validate_entries [e1, e2] = ([e1], [ValidationError.duplicateId (rawId e2)])) ∧
    (∀ (xs : List RawEntry) (e : RawEntry) (ys : List RawEntry),
      validate_entry e = false →
      (validate_entries (xs ++ e :: ys)).1 = (validate_entries (xs ++ ys)).1) := by
  refine ⟨fun entries => ?_, fun e1 e2 h1 h2 h3 => ?_, fun xs e ys hv => ?_⟩
  · have := validateGo_foldl entries [] [] (by simp)
    simpa [validate_entries, acceptedAmendedSpec] using this
  · simp [validate_entries, validateGo, h1, h2, h3]
  · exact validateGo_skip_invalid e hv ys xs []

/-- Witness for `validate_entries_characterization` (its duplicate-id
part) on a concrete two-record batch. -/
theorem validate_entries_characterization_witness :
    validate_entries [mkRaw "7" "a" "t" "c" "s", mkRaw "7" "b" "u" "d" "v"]
      = ([mkRaw "7" "a" "t" "c" "s"],
         [ValidationError.duplicateId (rawId (mkRaw "7" "b" "u" "d" "v"))]) :=
  validate_entries_characterization.2.1
    (mkRaw "7" "a" "t" "c" "s") (mkRaw "7" "b" "u" "d" "v")
    (by decide) (by decide) (by decide)

/-- Claim C2 counterexample: with a primary that is present and
structurally invalid (parses, but is not the expected list container) and
a perfectly valid backup 1, `load_state` returns the EMPTY state without
consulting any backup — the backup cascade runs only when reading,
parsing or validating the primary raises. -/
theorem load_state_notList_skips_backups :
    load_state fsNotListPrimary = [] ∧
    dictOfRaw (dictElems [StoredElem.dict rawG]) ≠ [] := by
  constructor
  · rfl
  · decide

/-- A backup slot holding no list, or a list whose validation scan
raises, is passed over by the cascade. -/
theorem backupCascade_cons_skip (fs : StateFS) (j : Nat) (rest : List Nat)
    (h : backupSkipped fs j) :
    backupCascade fs (j :: rest) = backupCascade fs rest := by
  cases hb : fs.backups j with
  | absent => simp [backupCascade, hb]
  | unreadable => simp [backupCascade, hb]
  | notList => simp [backupCascade, hb]
  | list es => simp [backupCascade, hb, h es hb]

/-- The first backup slot parsing to a list whose validation scan does
not raise stops the cascade with its validated dict records. -/
theorem backupCascade_cons_hit (fs : StateFS) (j : Nat) (rest : List Nat)
    (es : List StoredElem) (h : fs.backups j = FileState.list es)
    (hr : anyRaises es = false) :
    backupCascade fs (j :: rest) = dictOfRaw (dictElems es) := by
  simp [backupCascade, h, hr]

/-- Claim C2 (amended): the backup cascade runs only when the primary
raises — the file is unreadable or unparsable, or it parses to a list on
which the validation scan raises (e.g. a non-dict element such as a
number).  A primary parsing to a non-list value returns the empty state
directly without consulting backups, and a primary parsing to a list
whose scan does not raise returns its validated dict records without
fallback.  In the fallback case backups 1..5 are tried in index order; a
backup is skipped when it is missing, unreadable, non-list, or a list
whose scan raises; the first backup parsing to a list whose scan does not
raise supplies its validated records (even if none survive validation),
and if every backup is skipped the result is the empty state. -/
theorem load_state_backup_cascade :
    (∀ fs : StateFS, fs.primary = FileState.notList → load_state fs = []) ∧
    (∀ (fs : StateFS) (es : List StoredElem), fs.primary = FileState.list es →
      anyRaises es = false → load_state fs = dictOfRaw (dictElems es)) ∧
    (∀ (fs : StateFS) (es : List StoredElem), fs.primary = FileState.list es →
      anyRaises es = true → load_state fs = load_state_from_backup fs) ∧
    (∀ fs : StateFS, fs.primary = FileState.unreadable →
      load_state fs = load_state_from_backup fs) ∧
    (∀ (fs : StateFS) (i : Nat) (es : List StoredElem),
      1 ≤ i → i ≤ STATE_BACKUP_COUNT →
      fs.backups i = FileState.list es → anyRaises es = false →
      (∀ j, 1 ≤ j → j < i → backupSkipped fs j) →
      load_state_from_backup fs = dictOfRaw (dictElems es)) ∧
    (∀ fs : StateFS,
      (∀ j, 1 ≤ j → j ≤ STATE_BACKUP_COUNT → backupSkipped fs j) →
      load_state_from_backup fs = []) := by
  refine ⟨fun fs hp => by simp [load_state, hp],
          fun fs es hp hr => by simp [load_state, hp, hr],
          fun fs es hp hr => by simp [load_state, hp, hr],
          fun fs hp => by simp [load_state, hp],
          fun fs i es h1 h5 hlist hr hprev => ?_, fun fs hall => ?_⟩
  · have hL : load_state_from_backup fs = backupCascade fs [1, 2, 3, 4, 5] := by
      simp [load_state_from_backup, STATE_BACKUP_COUNT, List.range']
    rw [hL]
    rw [STATE_BACKUP_COUNT] at h5
    interval_cases i
    · rw [backupCascade_cons_hit fs 1 _ es hlist hr]
    · rw [backupCascade_cons_skip fs 1 _ (hprev 1 (by omega) (by omega)),
        backupCascade_cons_hit fs 2 _ es hlist hr]
    · rw [backupCascade_cons_skip fs 1 _ (hprev 1 (by omega) (by omega)),
        backupCascade_cons_skip fs 2 _ (hprev 2 (by omega) (by omega)),
        backupCascade_cons_hit fs 3 _ es hlist hr]
    · rw [backupCascade_cons_skip fs 1 _ (hprev 1 (by omega) (by omega)),
        backupCascade_cons_skip fs 2 _ (hprev 2 (by omega) (by omega)),
        backupCascade_cons_skip fs 3 _ (hprev 3 (by omega) (by omega)),
        backupCascade_cons_hit fs 4 _ es hlist hr]
    · rw [backupCascade_cons_skip fs 1 _ (hprev 1 (by omega) (by omega)),
        backupCascade_cons_skip fs 2 _ (hprev 2 (by omega) (by omega)),
        backupCascade_cons_skip fs 3 _ (hprev 3 (by omega) (by omega)),
        backupCascade_cons_skip fs 4 _ (hprev 4 (by omega) (by omega)),
        backupCascade_cons_hit fs 5 _ es hlist hr]
  · have hL : load_state_from_backup fs = backupCascade fs [1, 2, 3, 4, 5] := by
      simp [load_state_from_backup, STATE_BACKUP_COUNT, List.range']
    rw [hL,
      backupCascade_cons_skip fs 1 _ (hall 1 (by decide) (by decide)),
      backupCascade_cons_skip fs 2 _ (hall 2 (by decide) (by decide)),
      backupCascade_cons_skip fs 3 _ (hall 3 (by decide) (by decide)),
      backupCascade_cons_skip fs 4 _ (hall 4 (by decide) (by decide)),
      backupCascade_cons_skip fs 5 _ (hall 5 (by decide) (by decide)),
      backupCascade]

/-- Witness for `load_state_backup_cascade` (its fallback and cascade
parts): primary and backup 1 corrupt, backup 2 valid, so `load` returns
backup 2's records. -/
theorem load_state_backup_cascade_witness :
    load_state fsBackup2Valid = dictOfRaw (dictElems [StoredElem.dict rawG]) := by
  rw [load_state_backup_cascade.2.2.2.1 fsBackup2Valid rfl]
  exact load_state_backup_cascade.2.2.2.2.1 fsBackup2Valid 2 [StoredElem.dict rawG]
    (by omega) (by decide) rfl (by decide)
    (by
      intro j hj1 hj2
      interval_cases j
      intro es2 h
      simp [fsBackup2Valid] at h)

/-- A stored list of dict elements never raises during validation. -/
theorem anyRaises_map_dict (l : List RawEntry) :
    anyRaises (l.map StoredElem.dict) = false := by
  simp [anyRaises, elemRaises]

/-- The dict elements of a stored list of dicts are the dicts themselves. -/
theorem dictElems_map_dict (l : List RawEntry) :
    dictElems (l.map StoredElem.dict) = l := by
  induction l with
  | nil => rfl
  | cons x rest ih => simpa [dictElems] using ih

/-- Inserting a key not yet present appends the pair. -/
theorem insertAssoc_fresh (m : List (String × RawEntry)) (k : String) (v : RawEntry)
    (h : k ∉ m.map Prod.fst) :
    insertAssoc m k v = m ++ [(k, v)] := by
  have hany : (m.any fun p => decide (p.1 = k)) = false := by
    rw [List.any_eq_false]
    intro p hp
    simp only [Bool.not_eq_true, decide_eq_false_iff_not]
    exact fun hk => h (List.mem_map.mpr ⟨p, hp, hk⟩)
  simp [insertAssoc, hany]

/-- Every record the validator loop accepts is structurally valid. -/
theorem validateGo_accepted_valid (entries : List RawEntry) :
    ∀ (seen : List String) (e : RawEntry), e ∈ (validateGo entries seen).1 →
      validate_entry e = true := by
  induction entries with
  | nil => intro seen e he; simp [validateGo] at he
  | cons x rest ih =>
    intro seen e he
    by_cases hv : validate_entry x = true
    · by_cases hm : rawId x ∈ seen
      · simp only [validateGo, hv, Bool.true_eq_false, if_false, if_pos hm] at he
        exact ih seen e he
      · simp only [validateGo, hv, Bool.true_eq_false, if_false, if_neg hm,
          List.mem_cons] at he
        rcases he with rfl | he
        · exact hv
        · exact ih _ e he
    · rw [Bool.not_eq_true] at hv
      simp only [validateGo, hv, if_true] at he
      exact ih seen e he

/-- The records the validator loop accepts carry pairwise distinct ids,
none of them already in `seen`. -/
theorem validateGo_nodup_ids (entries : List RawEntry) :
    ∀ seen : List String,
      ((validateGo entries seen).1.map rawId).Nodup ∧
      ∀ e ∈ (validateGo entries seen).1, rawId e ∉ seen := by
  induction entries with
  | nil => intro seen; simp [validateGo]
  | cons x rest ih =>
    intro seen
    by_cases hv : validate_entry x = true
    · by_cases hm : rawId x ∈ seen
      · simp only [validateGo, hv, Bool.true_eq_false, if_false, if_pos hm]
        exact ih seen
      · simp only [validateGo, hv, Bool.true_eq_false, if_false, if_neg hm,
          List.map_cons, List.nodup_cons, List.mem_cons]
        obtain ⟨hnd, hni⟩ := ih (rawId x :: seen)
        refine ⟨⟨?_, hnd⟩, ?_⟩
        · intro hmem
          obtain ⟨e, he, heq⟩ := List.mem_map.mp hmem
          exact hni e he (heq ▸ List.mem_cons_self _ _)
        · rintro e (rfl | he)
          · exact hm
          · exact fun hs => hni e he (List.mem_cons_of_mem _ hs)
    · rw [Bool.not_eq_true] at hv
      simp only [validateGo, hv, if_true]
      exact ih seen

/-- The dict-building fold over an all-valid, duplicate-free record list
whose ids are fresh for the accumulator just appends the keyed pairs. -/
theorem dictOfRaw_foldl (es : List RawEntry) :
    ∀ acc : List (String × RawEntry),
      (∀ e ∈ es, validate_entry e = true) →
      (es.map rawId).Nodup →
      (∀ e ∈ es, rawId e ∉ acc.map Prod.fst) →
      es.foldl (fun m e => if validate_entry e then insertAssoc m (rawId e) e else m) acc
        = acc ++ es.map (fun e => (rawId e, e)) := by
  induction es with
  | nil => intro acc _ _ _; simp
  | cons x rest ih =>
    intro acc hval hnd hfresh
    have hnd2 : (rawId x ∉ rest.map rawId) ∧ (rest.map rawId).Nodup :=
      List.nodup_cons.mp (by simpa using hnd)
    simp only [List.foldl_cons]
    rw [if_pos (hval x (List.mem_cons_self _ _)),
      insertAssoc_fresh _ _ _ (hfresh x (List.mem_cons_self _ _)),
      ih (acc ++ [(rawId x, x)]) (fun e he => hval e (List.mem_cons_of_mem _ he))
        hnd2.2 ?_]
    · simp
    · intro e he
      simp only [List.map_append, List.mem_append, List.map_cons, List.map_nil,
        List.mem_singleton, not_or]
      refine ⟨hfresh e (List.mem_cons_of_mem _ he), fun h => ?_⟩
      exact hnd2.1 (h ▸ List.mem_map_of_mem rawId he)

/-- On an all-valid, duplicate-free record list the Python dict
comprehension is just the list of records keyed by their own ids. -/
theorem dictOfRaw_eq_map (es : List RawEntry)
    (hval : ∀ e ∈ es, validate_entry e = true)
    (hnd : (es.map rawId).Nodup) :
    dictOfRaw es = es.map (fun e => (rawId e, e)) := by
  have := dictOfRaw_foldl es [] hval hnd (by simp)
  simpa [dictOfRaw] using this

/-- Claim C4: for a batch that passes validation (at least one accepted
record), `save_state_atomic` succeeds and a subsequent `load_state` of
the resulting filesystem returns exactly the accepted records, field for
field, keyed by their ids — no extra, missing or altered record. -/
theorem save_load_round_trip (entries : List RawEntry) (fs : StateFS)
    (h : (validate_entries entries).1 ≠ []) :
    (save_state_atomic entries fs).1 = true ∧
    load_state (save_state_atomic entries fs).2
      = (validate_entries entries).1.map (fun e => (rawId e, e)) := by
  constructor
  · simp [save_state_atomic, h]
  · have h2 : load_state (save_state_atomic entries fs).2
        = dictOfRaw (validate_entries entries).1 := by
      simp [save_state_atomic, h, load_state, anyRaises_map_dict, dictElems_map_dict]
    rw [h2]
    exact dictOfRaw_eq_map _ (fun e he => validateGo_accepted_valid entries [] e he)
      (validateGo_nodup_ids entries []).1

/-- Witness for `save_load_round_trip` on a one-record valid batch over
the empty filesystem. -/
theorem save_load_round_trip_witness :
    (save_state_atomic [mkRaw "1" "a" "t" "c" "s"] fsEmpty).1 = true ∧
    load_state (save_state_atomic [mkRaw "1" "a" "t" "c" "s"] fsEmpty).2
      = (validate_entries [mkRaw "1" "a" "t" "c" "s"]).1.map (fun e => (rawId e, e)) :=
  save_load_round_trip [mkRaw "1" "a" "t" "c" "s"] fsEmpty (by decide)

/-- The dict lookup returns a record bearing the looked-up id. -/
theorem lastWithId_some_id (i : String) :
    ∀ (es : List Entry) (e : Entry), lastWithId es i = some e → e.id = i := by
  intro es
  induction es with
  | nil => intro e h; simp [lastWithId] at h
  | cons x rest ih =>
    intro e h
    cases hr : lastWithId rest i with
    | some r =>
      simp only [lastWithId, hr, Option.some.injEq] at h
      exact h ▸ ih r hr
    | none =>
      simp only [lastWithId, hr] at h
      by_cases hx : x.id = i
      · rw [if_pos hx] at h
        cases h
        exact hx
      · rw [if_neg hx] at h
        cases h

/-- The dict lookup succeeds on every id occurring in the list. -/
theorem lastWithId_mem_ids (i : String) :
    ∀ es : List Entry, i ∈ es.map Entry.id → ∃ e, lastWithId es i = some e := by
  intro es
  induction es with
  | nil => intro h; simp at h
  | cons x rest ih =>
    intro h
    cases hr : lastWithId rest i with
    | some r => exact ⟨r, by simp only [lastWithId, hr]⟩
    | none =>
      simp only [List.map_cons, List.mem_cons] at h
      rcases h with h | h
      · exact ⟨x, by simp only [lastWithId, hr]; rw [if_pos h.symm]⟩
      · obtain ⟨e, he⟩ := ih h
        rw [he] at hr
        cases hr

/-- Mapping ids over the lookups of a list of present ids is the
identity. -/
theorem map_id_filterMap_lastWithId (es : List Entry) :
    ∀ ids : List String, (∀ i ∈ ids, i ∈ es.map Entry.id) →
      ((ids.filterMap (lastWithId es)).map Entry.id) = ids := by
  intro ids
  induction ids with
  | nil => intro _; simp
  | cons a rest ih =>
    intro h
    obtain ⟨e, he⟩ := lastWithId_mem_ids a es (h a (List.mem_cons_self _ _))
    simp only [List.filterMap_cons, he, List.map_cons]
    rw [lastWithId_some_id a es e he, ih (fun i hi => h i (List.mem_cons_of_mem _ hi))]

/-- The per-id edited element, when produced, bears its id. -/
theorem editedOf_id (cur prev : List Entry) :
    ∀ (i : String) (ee : EditedEntry), editedOf cur prev i = some ee → ee.id = i := by
  intro i ee h
  cases hc : lastWithId cur i with
  | none => simp [editedOf, hc] at h
  | some cu =>
    cases hp : lastWithId prev i with
    | none => simp [editedOf, hc, hp] at h
    | some pv =>
      simp only [editedOf, hc, hp] at h
      by_cases hch : cu.content ≠ pv.content ∨ cu.timestamp ≠ pv.timestamp
      · rw [if_pos hch] at h
        cases h
        rfl
      · rw [if_neg hch] at h
        cases h

/-- The per-id edited element exists exactly when both lookups succeed
and content or timestamp changed. -/
theorem editedOf_isSome_iff (cur prev : List Entry) (i : String) :
    (editedOf cur prev i).isSome = true ↔
      ∃ cu pv, lastWithId cur i = some cu ∧ lastWithId prev i = some pv ∧
        (cu.content ≠ pv.content ∨ cu.timestamp ≠ pv.timestamp) := by
  cases hc : lastWithId cur i with
  | none => simp [editedOf, hc]
  | some cu =>
    cases hp : lastWithId prev i with
    | none => simp [editedOf, hc, hp]
    | some pv =>
      simp only [editedOf, hc, hp, Option.some.injEq]
      by_cases hch : cu.content ≠ pv.content ∨ cu.timestamp ≠ pv.timestamp
      · rw [if_pos hch]
        simp only [Option.isSome_some, true_iff]
        exact ⟨cu, pv, rfl, rfl, hch⟩
      · rw [if_neg hch]
        simp only [Option.isSome_none, Bool.false_eq_true, false_iff, not_exists]
        rintro cu2 pv2 ⟨rfl, rfl, h⟩
        exact hch h

/-- Mapping a projection over a `filterMap` whose results carry their
argument in the projection yields the arguments that produced a result. -/
theorem map_proj_filterMap {β : Type} (f : String → Option β) (proj : β → String)
    (hf : ∀ a b, f a = some b → proj b = a) :
    ∀ l : List String, (l.filterMap f).map proj = l.filter (fun a => (f a).isSome) := by
  intro l
  induction l with
  | nil => simp
  | cons a rest ih =>
    cases hfa : f a with
    | none => simp [List.filterMap_cons, hfa, ih]
    | some b => simp [List.filterMap_cons, hfa, ih, hf a b hfa]

/-- Unfolding equations of `compute_diff` (all definitional). -/
theorem compute_diff_new (cur prev : List Entry) :
    (compute_diff cur prev).new =
      ((cur.map Entry.id).dedup.filter
        (fun i => decide (i ∉ (prev.map Entry.id).dedup))).filterMap (lastWithId cur) := rfl

/-- See `compute_diff_new`. -/
theorem compute_diff_deleted (cur prev : List Entry) :
    (compute_diff cur prev).deleted =
      ((prev.map Entry.id).dedup.filter
        (fun i => decide (i ∉ (cur.map Entry.id).dedup))).filterMap (lastWithId prev) := rfl

/-- See `compute_diff_new`. -/
theorem compute_diff_edited (cur prev : List Entry) :
    (compute_diff cur prev).edited =
      ((cur.map Entry.id).dedup.filter
        (fun i => decide (i ∈ (prev.map Entry.id).dedup))).filterMap
          (editedOf cur prev) := rfl

/-- The ids of the `new` entries are exactly the current-only ids. -/
theorem compute_diff_new_ids (cur prev : List Entry) :
    (compute_diff cur prev).new.map Entry.id =
      (cur.map Entry.id).dedup.filter
        (fun i => decide (i ∉ (prev.map Entry.id).dedup)) := by
  rw [compute_diff_new]
  refine map_id_filterMap_lastWithId cur _ (fun i hi => ?_)
  exact List.mem_dedup.mp (List.mem_filter.mp hi).1

/-- The ids of the `deleted` entries are exactly the previous-only ids. -/
theorem compute_diff_deleted_ids (cur prev : List Entry) :
    (compute_diff cur prev).deleted.map Entry.id =
      (prev.map Entry.id).dedup.filter
        (fun i => decide (i ∉ (cur.map Entry.id).dedup)) := by
  rw [compute_diff_deleted]
  refine map_id_filterMap_lastWithId prev _ (fun i hi => ?_)
  exact List.mem_dedup.mp (List.mem_filter.mp hi).1

/-- The ids of the `edited` entries are exactly the common ids whose
comparison fired. -/
theorem compute_diff_edited_ids (cur prev : List Entry) :
    (compute_diff cur prev).edited.map EditedEntry.id =
      ((cur.map Entry.id).dedup.filter
        (fun i => decide (i ∈ (prev.map Entry.id).dedup))).filter
          (fun i => (editedOf cur prev i).isSome) := by
  rw [compute_diff_edited]
  exact map_proj_filterMap (editedOf cur prev) EditedEntry.id (editedOf_id cur prev) _

/-- Claim C1: in the spec's scenario — previous ids 1,2,3; current ids
1,2,4,5 with record 2's content changed and record 1 unchanged in content
and timestamp — `compute_diff` returns new = the current records 4 and 5,
edited = exactly record 2 (with its previous and current content and
timestamp and the current capture time), deleted = exactly previous
record 3, and summary counts 2, 1, 1.  In general the `new`, `edited` and
`deleted` ids are respectively the current-only ids, the common ids whose
content or timestamp changed, and the previous-only ids (disjoint by
construction, as the characterizations exclude one another), and each
list mentions every such id exactly once. -/
theorem compute_diff_spec :
    (∀ a1 t1 c1 s1 a2 t2 c2 s2 a4 t4 c4 s4 a5 t5 c5 s5
       pa1 pt1 pc1 ps1 pa2 pt2 pc2 ps2 pa3 pt3 pc3 ps3 : String,
      c2 ≠ pc2 → c1 = pc1 → t1 = pt1 →
      compute_diff
        [⟨"1", a1, t1, c1, s1⟩, ⟨"2", a2, t2, c2, s2⟩,
         ⟨"4", a4, t4, c4, s4⟩, ⟨"5", a5, t5, c5, s5⟩]
        [⟨"1", pa1, pt1, pc1, ps1⟩, ⟨"2", pa2, pt2, pc2, ps2⟩,
         ⟨"3", pa3, pt3, pc3, ps3⟩]
      = { new := [⟨"4", a4, t4, c4, s4⟩, ⟨"5", a5, t5, c5, s5⟩]
          edited := [⟨"2", a2, pc2, pt2, c2, t2, s2⟩]
          deleted := [⟨"3", pa3, pt3, pc3, ps3⟩]
          summary := ⟨2, 1, 1, 4, 3⟩ }) ∧
    (∀ (cur prev : List Entry) (i : String),
      (i ∈ (compute_diff cur prev).new.map Entry.id ↔
        i ∈ cur.map Entry.id ∧ i ∉ prev.map Entry.id) ∧
      (i ∈ (compute_diff cur prev).deleted.map Entry.id ↔
        i ∈ prev.map Entry.id ∧ i ∉ cur.map Entry.id) ∧
      (i ∈ (compute_diff cur prev).edited.map EditedEntry.id ↔
        i ∈ cur.map Entry.id ∧ i ∈ prev.map Entry.id ∧
        ∃ cu pv, lastWithId cur i = some cu ∧ lastWithId prev i = some pv ∧
          (cu.content ≠ pv.content ∨ cu.timestamp ≠ pv.timestamp))) ∧
    (∀ cur prev : List Entry,
      ((compute_diff cur prev).new.map Entry.id).Nodup ∧
      ((compute_diff cur prev).edited.map EditedEntry.id).Nodup ∧
      ((compute_diff cur prev).deleted.map Entry.id).Nodup) := by
  refine ⟨?_, fun cur prev i => ⟨?_, ?_, ?_⟩, fun cur prev => ⟨?_, ?_, ?_⟩⟩
  · intro a1 t1 c1 s1 a2 t2 c2 s2 a4 t4 c4 s4 a5 t5 c5 s5
      pa1 pt1 pc1 ps1 pa2 pt2 pc2 ps2 pa3 pt3 pc3 ps3 hne hceq hteq
    have h1 : editedOf
        [⟨"1", a1, t1, c1, s1⟩, ⟨"2", a2, t2, c2, s2⟩,
         ⟨"4", a4, t4, c4, s4⟩, ⟨"5", a5, t5, c5, s5⟩]
        [⟨"1", pa1, pt1, pc1, ps1⟩, ⟨"2", pa2, pt2, pc2, ps2⟩,
         ⟨"3", pa3, pt3, pc3, ps3⟩] "1" = none := by
      simp [editedOf, lastWithId, hceq, hteq]
    have h2 : editedOf
        [⟨"1", a1, t1, c1, s1⟩, ⟨"2", a2, t2, c2, s2⟩,
         ⟨"4", a4, t4, c4, s4⟩, ⟨"5", a5, t5, c5, s5⟩]
        [⟨"1", pa1, pt1, pc1, ps1⟩, ⟨"2", pa2, pt2, pc2, ps2⟩,
         ⟨"3", pa3, pt3, pc3, ps3⟩] "2"
        = some ⟨"2", a2, pc2, pt2, c2, t2, s2⟩ := by
      simp [editedOf, lastWithId, hne]
    have hfm : List.filterMap (editedOf
        [⟨"1", a1, t1, c1, s1⟩, ⟨"2", a2, t2, c2, s2⟩,
         ⟨"4", a4, t4, c4, s4⟩, ⟨"5", a5, t5, c5, s5⟩]
        [⟨"1", pa1, pt1, pc1, ps1⟩, ⟨"2", pa2, pt2, pc2, ps2⟩,
         ⟨"3", pa3, pt3, pc3, ps3⟩]) ["1", "2"]
        = [⟨"2", a2, pc2, pt2, c2, t2, s2⟩] := by
      simp only [List.filterMap_cons, List.filterMap_nil, h1, h2]
    have hmid : DiffResult.mk
        [⟨"4", a4, t4, c4, s4⟩, ⟨"5", a5, t5, c5, s5⟩]
        (List.filterMap (editedOf
          [⟨"1", a1, t1, c1, s1⟩, ⟨"2", a2, t2, c2, s2⟩,
           ⟨"4", a4, t4, c4, s4⟩, ⟨"5", a5, t5, c5, s5⟩]
          [⟨"1", pa1, pt1, pc1, ps1⟩, ⟨"2", pa2, pt2, pc2, ps2⟩,
           ⟨"3", pa3, pt3, pc3, ps3⟩]) ["1", "2"])
        [⟨"3", pa3, pt3, pc3, ps3⟩]
        (DiffSummary.mk 2
          (List.filterMap (editedOf
            [⟨"1", a1, t1, c1, s1⟩, ⟨"2", a2, t2, c2, s2⟩,
             ⟨"4", a4, t4, c4, s4⟩, ⟨"5", a5, t5, c5, s5⟩]
            [⟨"1", pa1, pt1, pc1, ps1⟩, ⟨"2", pa2, pt2, pc2, ps2⟩,
             ⟨"3", pa3, pt3, pc3, ps3⟩]) ["1", "2"]).length 1 4 3)
        = { new := [⟨"4", a4, t4, c4, s4⟩, ⟨"5", a5, t5, c5, s5⟩]
            edited := [⟨"2", a2, pc2, pt2, c2, t2, s2⟩]
            deleted := [⟨"3", pa3, pt3, pc3, ps3⟩]
            summary := ⟨2, 1, 1, 4, 3⟩ } := by
      rw [hfm]
      rfl
    exact hmid
  · rw [compute_diff_new_ids]
    simp [List.mem_filter, List.mem_dedup]
  · rw [compute_diff_deleted_ids]
    simp [List.mem_filter, List.mem_dedup]
  · rw [compute_diff_edited_ids]
    constructor
    · intro h
      obtain ⟨h1, hq⟩ := List.mem_filter.mp h
      obtain ⟨hd, hp⟩ := List.mem_filter.mp h1
      refine ⟨List.mem_dedup.mp hd, List.mem_dedup.mp (of_decide_eq_true hp), ?_⟩
      exact (editedOf_isSome_iff cur prev i).mp hq
    · rintro ⟨hc, hp, hex⟩
      refine List.mem_filter.mpr ⟨List.mem_filter.mpr ⟨List.mem_dedup.mpr hc, ?_⟩, ?_⟩
      · exact decide_eq_true (List.mem_dedup.mpr hp)
      · exact (editedOf_isSome_iff cur prev i).mpr hex
  · rw [compute_diff_new_ids]
    exact (List.nodup_dedup _).filter _
  · rw [compute_diff_edited_ids]
    exact ((List.nodup_dedup _).filter _).filter _
  · rw [compute_diff_deleted_ids]
    exact (List.nodup_dedup _).filter _

/-- Witness for `compute_diff_spec` (its scenario part) at concrete field
values. -/
theorem compute_diff_spec_witness :
    compute_diff
      [⟨"1", "a1", "tt", "cc", "s1"⟩, ⟨"2", "a2", "t2", "new2", "s2"⟩,
       ⟨"4", "a4", "t4", "c4", "s4"⟩, ⟨"5", "a5", "t5", "c5", "s5"⟩]
      [⟨"1", "pa1", "tt", "cc", "ps1"⟩, ⟨"2", "pa2", "pt2", "old2", "ps2"⟩,
       ⟨"3", "pa3", "pt3", "pc3", "ps3"⟩]
    = { new := [⟨"4", "a4", "t4", "c4", "s4"⟩, ⟨"5", "a5", "t5", "c5", "s5"⟩]
        edited := [⟨"2", "a2", "old2", "pt2", "new2", "t2", "s2"⟩]
        deleted := [⟨"3", "pa3", "pt3", "pc3", "ps3"⟩]
        summary := ⟨2, 1, 1, 4, 3⟩ } :=
  compute_diff_spec.1 "a1" "tt" "cc" "s1" "a2" "t2" "new2" "s2"
    "a4" "t4" "c4" "s4" "a5" "t5" "c5" "s5"
    "pa1" "tt" "cc" "ps1" "pa2" "pt2" "old2" "ps2" "pa3" "pt3" "pc3" "ps3"
    (by decide) rfl rfl
